import Mathlib

/-!
Verification development for the topic-sentinel research agent.

The definitions below are a shallow embedding of the orchestration core of
the repository: `key_manager.py` (`ApiKeyManager`), `database.py` (the
seen-URL store and the synthesis cache, modelled as one logical record store
covering the common semantics of the MariaDB and SQLite backends), and
`agent_logic.py` (`analyze_content_with_retry` and `run_agent_task`).
External collaborators (web search, content extraction, the LLM completion
calls) are modelled as an explicit environment of pure functions, and the
orchestrator threads its mutable state (database rows, key-rotator cursor)
explicitly while recording a trace of the observable operations it performs.
-/

/-- Model of Python `str.lower()` restricted to its ASCII behaviour
(`Char.toLower` lowercases A-Z only; topics and personas in this code base
are ASCII identifiers). From `topic.lower()` / `persona.lower()` in
`database.py`. -/
def pyLower (s : String) : String := ⟨s.data.map Char.toLower⟩

/-- Boolean prefix test on character lists. -/
def charsPrefix : List Char → List Char → Bool
  | [], _ => true
  | _ :: _, [] => false
  | a :: as, b :: bs => a == b && charsPrefix as bs

/-- Boolean contiguous-substring test on character lists. -/
def charsInfix (needle : List Char) : List Char → Bool
  | [] => charsPrefix needle []
  | c :: rest => charsPrefix needle (c :: rest) || charsInfix needle rest

/-- Model of the Python substring test `needle in hay`. -/
def strContains (hay needle : String) : Bool := charsInfix needle.data hay.data

/-- Model of Python `s.endswith(suffix)`, used for the `.pdf` dispatch in
`analyze_content_with_retry`. -/
def strEndsWith (s suffix : String) : Bool :=
  charsPrefix suffix.data.reverse s.data.reverse

/-- A Python value produced by `json.loads`, as far as the cache code can
observe it.  Numbers are kept as their source lexeme: the cache code never
computes with them, so their numeric value is irrelevant here. -/
inductive JsonVal where
  | null
  | bool (b : Bool)
  | num (lexeme : String)
  | str (s : String)
  | arr (elems : List JsonVal)
  | obj (fields : List (String × JsonVal))

/-- Escape one character the way `json.dumps` renders it inside a string
literal.  Control characters other than newline/tab/CR and non-ASCII
characters are kept verbatim (the model's scope: the URL strings this
program serializes). -/
def jsonEscapeChar (c : Char) : List Char :=
  if c = '"' then ['\\', '"']
  else if c = '\\' then ['\\', '\\']
  else if c = '\n' then ['\\', 'n']
  else if c = '\t' then ['\\', 't']
  else if c = '\r' then ['\\', 'r']
  else [c]

/-- `json.dumps` on a single string. -/
def jsonEncodeStr (s : String) : String :=
  "\"" ++ ⟨(s.data.map jsonEscapeChar).flatten⟩ ++ "\""

/-- Model of `json.dumps(sources)` for a list of strings, with the default
`", "` separator, as performed by `cache_report`. -/
def json_dumps_strlist (l : List String) : String :=
  "[" ++ String.intercalate ", " (l.map jsonEncodeStr) ++ "]"

/-- JSON whitespace skipping. -/
def skipWs : List Char → List Char
  | [] => []
  | c :: rest =>
    if c = ' ' || c = '\n' || c = '\t' || c = '\r' then skipWs rest else c :: rest

/-- Numeric value of one hexadecimal digit, for `\\uXXXX` escapes; surrogate
code points fall outside Lean's `Char` and map to the replacement character
(a divergence of the model for inputs this program never produces). -/
def hexDigit (c : Char) : Option Nat :=
  let n := c.toNat
  if 48 ≤ n ∧ n ≤ 57 then some (n - 48)
  else if 97 ≤ n ∧ n ≤ 102 then some (n - 87)
  else if 65 ≤ n ∧ n ≤ 70 then some (n - 55)
  else none

/-- Decode one escape sequence appearing after a backslash inside a JSON
string literal, returning the decoded character and the remaining input. -/
def decodeEscape : List Char → Option (Char × List Char)
  | [] => none
  | e :: rest =>
    if e = '"' then some ('"', rest)
    else if e = '\\' then some ('\\', rest)
    else if e = '/' then some ('/', rest)
    else if e = 'n' then some ('\n', rest)
    else if e = 't' then some ('\t', rest)
    else if e = 'r' then some ('\r', rest)
    else if e = 'b' then some (Char.ofNat 8, rest)
    else if e = 'f' then some (Char.ofNat 12, rest)
    else if e = 'u' then
      match rest with
      | h1 :: h2 :: h3 :: h4 :: rest2 =>
        match hexDigit h1, hexDigit h2, hexDigit h3, hexDigit h4 with
        | some a, some b, some c, some d =>
          some (Char.ofNat (((a * 16 + b) * 16 + c) * 16 + d), rest2)
        | _, _, _, _ => none
      | _ => none
    else none

/-- Parse the body of a JSON string literal (after the opening quote).  The
fuel argument dominates the recursion; every step consumes at least one
input character, so fuel at least the input length never runs out. -/
def parseStringBody : Nat → List Char → Option (List Char × List Char)
  | 0, _ => none
  | _, [] => none
  | fuel + 1, c :: rest =>
    if c = '"' then some ([], rest)
    else if c = '\\' then
      match decodeEscape rest with
      | none => none
      | some (d, rem) =>
        match parseStringBody fuel rem with
        | none => none
        | some (s, rem2) => some (d :: s, rem2)
    else
      match parseStringBody fuel rest with
      | none => none
      | some (s, rem) => some (c :: s, rem)

/-- Parse a JSON number lexeme (sign, digits, fraction, exponent). -/
def parseNumberLexeme (cs : List Char) : Option (List Char × List Char) :=
  let (sign, cs1) :=
    match cs with
    | '-' :: rest => (['-'], rest)
    | _ => (([] : List Char), cs)
  let int := cs1.takeWhile Char.isDigit
  let cs2 := cs1.dropWhile Char.isDigit
  if int.isEmpty then none
  else
    let (frac, cs3) :=
      match cs2 with
      | '.' :: rest =>
        let ds := rest.takeWhile Char.isDigit
        if ds.isEmpty then (([] : List Char), cs2)
        else ('.' :: ds, rest.dropWhile Char.isDigit)
      | _ => (([] : List Char), cs2)
    let (expo, cs4) :=
      match cs3 with
      | e :: rest =>
        if e = 'e' || e = 'E' then
          let (sgn, rest2) :=
            match rest with
            | '+' :: r => (['+'], r)
            | '-' :: r => (['-'], r)
            | _ => (([] : List Char), rest)
          let ds := rest2.takeWhile Char.isDigit
          if ds.isEmpty then (([] : List Char), cs3)
          else (e :: (sgn ++ ds), rest2.dropWhile Char.isDigit)
        else (([] : List Char), cs3)
      | _ => (([] : List Char), cs3)
    some (sign ++ int ++ frac ++ expo, cs4)

mutual

/-- Parse one JSON value.  Fuel-based recursion: nested values and array /
object elements each consume fuel, and each such step consumes at least one
input character, so fuel above the input length never runs out. -/
def parseValue : Nat → List Char → Option (JsonVal × List Char)
  | 0, _ => none
  | fuel + 1, cs =>
    match skipWs cs with
    | [] => none
    | c :: rest =>
      if c = 'n' then
        match rest with
        | 'u' :: 'l' :: 'l' :: rem => some (JsonVal.null, rem)
        | _ => none
      else if c = 't' then
        match rest with
        | 'r' :: 'u' :: 'e' :: rem => some (JsonVal.bool true, rem)
        | _ => none
      else if c = 'f' then
        match rest with
        | 'a' :: 'l' :: 's' :: 'e' :: rem => some (JsonVal.bool false, rem)
        | _ => none
      else if c = '"' then
        match parseStringBody (rest.length + 1) rest with
        | none => none
        | some (s, rem) => some (JsonVal.str ⟨s⟩, rem)
      else if c = '[' then
        match skipWs rest with
        | ']' :: rem => some (JsonVal.arr [], rem)
        | rest2 => parseArrayElems fuel rest2 []
      else if c = '{' then
        match skipWs rest with
        | '}' :: rem => some (JsonVal.obj [], rem)
        | rest2 => parseObjFields fuel rest2 []
      else if c = '-' || c.isDigit then
        match parseNumberLexeme (c :: rest) with
        | none => none
        | some (lex, rem) => some (JsonVal.num ⟨lex⟩, rem)
      else none

/-- Parse the elements of a JSON array after its opening bracket (first
element pending), accumulating parsed elements. -/
def parseArrayElems : Nat → List Char → List JsonVal → Option (JsonVal × List Char)
  | 0, _, _ => none
  | fuel + 1, cs, acc =>
    match parseValue fuel cs with
    | none => none
    | some (v, rem) =>
      match skipWs rem with
      | ',' :: rem2 => parseArrayElems fuel rem2 (acc ++ [v])
      | ']' :: rem2 => some (JsonVal.arr (acc ++ [v]), rem2)
      | _ => none

/-- Parse the fields of a JSON object after its opening brace (first field
pending), accumulating parsed fields. -/
def parseObjFields : Nat → List Char → List (String × JsonVal) → Option (JsonVal × List Char)
  | 0, _, _ => none
  | fuel + 1, cs, acc =>
    match skipWs cs with
    | '"' :: rest =>
      match parseStringBody (rest.length + 1) rest with
      | none => none
      | some (k, rem) =>
        match skipWs rem with
        | ':' :: rem2 =>
          match parseValue fuel rem2 with
          | none => none
          | some (v, rem3) =>
            match skipWs rem3 with
            | ',' :: rem4 => parseObjFields fuel rem4 (acc ++ [(⟨k⟩, v)])
            | '}' :: rem4 => some (JsonVal.obj (acc ++ [(⟨k⟩, v)]), rem4)
            | _ => none
        | _ => none
    | _ => none

end

/-- Model of Python `json.loads`: parse one JSON document and require that
only whitespace remains; `none` models a raised `json.JSONDecodeError`. -/
def json_loads (s : String) : Option JsonVal :=
  match parseValue (s.data.length + 1) s.data with
  | none => none
  | some (v, rem) => if (skipWs rem).isEmpty then some v else none

/-- One row of the `synthesis_cache` table: topic and persona are stored
case-folded; `sources` is the TEXT column (nullable in the schema, hence
`Option`). -/
structure CacheRow where
  topic : String
  persona : String
  report : String
  sources : Option String

/-- The persistent store: the `seen_urls` table as insertion-ordered
`(url, topic)` rows, and the `synthesis_cache` table.  This models the
record-store semantics shared by the MariaDB and SQLite backends of
`database.py`. -/
structure DB where
  seen_urls : List (String × String)
  cache : List CacheRow

/-- Model of `check_if_url_exists(url, topic)`: `SELECT id FROM seen_urls
WHERE url = ? AND topic = ?` with the topic case-folded (the url is not). -/
def check_if_url_exists (url topic : String) (db : DB) : Bool :=
  db.seen_urls.any (fun r => r.1 == url && r.2 == pyLower topic)

/-- Model of `add_url(url, topic)`: insert the `(url, lowered topic)` row
only when `check_if_url_exists` does not already find it. -/
def add_url (url topic : String) (db : DB) : DB :=
  if check_if_url_exists url topic db then db
  else { db with seen_urls := db.seen_urls ++ [(url, pyLower topic)] }

/-- Model of `get_seen_urls_for_topic(topic)`: `SELECT url FROM seen_urls
WHERE topic = ?` with the topic case-folded, in insertion order. -/
def get_seen_urls_for_topic (topic : String) (db : DB) : List String :=
  (db.seen_urls.filter (fun r => r.2 == pyLower topic)).map (fun r => r.1)

/-- The record `get_cached_report` hands back: the report text and the
Python value sitting in the `sources` slot of the returned dict (a raw
`None`/empty string left unparsed, a parsed JSON value, or the empty list
substituted on a parse failure). -/
structure CachedRecord where
  report : String
  sources : JsonVal

/-- Model of `get_cached_report(topic, persona)`: look up the first row for
the case-folded `(topic, persona)` key; when the `sources` column is truthy
(non-NULL and non-empty) parse it with `json.loads`, and on a parse failure
swallow the error and substitute the empty list.  The function is total:
no exception ever propagates to the caller. -/
def get_cached_report (topic persona : String) (db : DB) : Option CachedRecord :=
  match db.cache.find? (fun r => r.topic == pyLower topic && r.persona == pyLower persona) with
  | none => none
  | some row =>
    let sources :=
      match row.sources with
      | none => JsonVal.null
      | some s =>
        if s = "" then JsonVal.str ""
        else
          match json_loads s with
          | some v => v
          | none => JsonVal.arr []
    some { report := row.report, sources := sources }

/-- Model of `cache_report(topic, persona, report, sources)`: upsert under
the case-folded key, serializing the sources with `json.dumps`.  Any prior
row for the key is replaced wholesale. -/
def cache_report (topic persona report : String) (sources : List String) (db : DB) : DB :=
  let t := pyLower topic
  let p := pyLower persona
  let row : CacheRow := { topic := t, persona := p, report := report,
                          sources := some (json_dumps_strlist sources) }
  { db with cache := (db.cache.filter (fun r => !(r.topic == t && r.persona == p))) ++ [row] }

/-- Model of `ApiKeyManager`: the discovered credential list and the
rotation cursor.  The constructor rejects an empty list, so `keys` is
non-empty in every reachable state; theorems that need this carry it as a
hypothesis. -/
structure ApiKeyManager where
  keys : List String
  current_key_index : Nat

/-- Model of `ApiKeyManager.get_current_key`: `self.keys[self.current_key_index]`.
The default `""` is never reached while the cursor invariant (index < number
of keys, keys non-empty) holds. -/
def get_current_key (km : ApiKeyManager) : String :=
  km.keys.getD km.current_key_index ""

/-- Model of `ApiKeyManager.get_next_key`: advance the cursor modulo the
number of keys and return the new current key together with the updated
manager. -/
def get_next_key (km : ApiKeyManager) : String × ApiKeyManager :=
  let km2 : ApiKeyManager :=
    { km with current_key_index := (km.current_key_index + 1) % km.keys.length }
  (get_current_key km2, km2)

/-- One item returned by the search capability; `run_agent_task` filters the
raw results with `isinstance(url, str)`. -/
inductive SearchItem where
  | str (url : String)
  | nonStr

/-- Outcome of one summary completion call (`analysis_llm_instance.invoke`):
a successful text, the distinguished `ResourceExhausted` quota signal, or
any other exception. -/
inductive CompletionResult where
  | success (text : String)
  | quotaExhausted
  | otherError (msg : String)

/-- Outcome of one synthesis attempt (the `synthesis_agent_executor.invoke`
block): a result dict whose `output` slot may be absent, the quota signal,
or any other exception. -/
inductive SynthResult where
  | success (output : Option String)
  | quotaExhausted
  | otherError (msg : String)

/-- The external collaborators of one run, as pure functions: search,
the three extraction tools, and the two completion capabilities (each
keyed by the credential the LLM handle was built with, plus the prompt). -/
structure Env where
  search : String → List SearchItem
  fetchYoutube : String → String
  fetchPdf : String → String
  fetchScrape : String → String
  completeSummary : String → String → CompletionResult
  completeSynthesis : String → String → SynthResult

/-- Observable operations of a run, recorded in order: a discovery query,
a content fetch for a URL, a summary completion attempt (credential and
prompt), and a synthesis completion attempt (credential and prompt). -/
inductive Event where
  | searchEv (query : String)
  | fetchEv (url : String)
  | summaryAttempt (key prompt : String)
  | synthAttempt (key prompt : String)
deriving Repr, DecidableEq

/-- The mutable state a run threads: the database and the module-level
`key_manager`. -/
structure AgentState where
  db : DB
  km : ApiKeyManager

/-- The candidate URLs of the discovery phase:
`[url for url in google_search_tool.func(query=topic) if isinstance(url, str)]`. -/
def search_urls (env : Env) (topic : String) : List String :=
  (env.search topic).filterMap (fun it =>
    match it with
    | SearchItem.str u => some u
    | SearchItem.nonStr => none)

/-- The extraction dispatch of `analyze_content_with_retry`: YouTube watch
URLs go to the transcript tool, `.pdf` URLs (case-insensitively) to the PDF
reader, everything else to the scraper. -/
def fetch_content (env : Env) (url : String) : String :=
  if strContains url "youtube.com/watch" then env.fetchYoutube url
  else if strEndsWith (pyLower url) ".pdf" then env.fetchPdf url
  else env.fetchScrape url

/-- The usability test on extracted content:
`content_to_analyze and "Could not" not in content_to_analyze and "Failed" not in content_to_analyze`. -/
def usable_content (content : String) : Bool :=
  content != "" && !(strContains content "Could not") && !(strContains content "Failed")

/-- The summary prompt built for a URL's extracted content. -/
def mk_summary_prompt (content : String) : String :=
  "Summarize the key points of the following content in one paragraph:\n\n---" ++ content ++ "---"

/-- The quota-failover loop of `analyze_content_with_retry`
(`for _ in range(len(key_manager.keys))`): invoke the summary completion on
the current LLM handle; on success return the formatted summary block, on
`ResourceExhausted` advance the rotator and rebuild the handle with the new
key, on any other exception abandon the URL.  Falling out of the loop
(all credentials exhausted) also abandons the URL.  Returns the summary (if
any), the final LLM key, the final state, and the accumulated events. -/
def summary_attempt_loop (env : Env) (prompt url : String) :
    Nat → String → AgentState → List Event →
    Option String × String × AgentState × List Event
  | 0, llmKey, s, evs => (none, llmKey, s, evs)
  | n + 1, llmKey, s, evs =>
    let evs2 := evs ++ [Event.summaryAttempt llmKey prompt]
    match env.completeSummary llmKey prompt with
    | CompletionResult.success text =>
      (some ("Source: " ++ url ++ "\nSummary: " ++ text ++ "\n---"), llmKey, s, evs2)
    | CompletionResult.quotaExhausted =>
      let p := get_next_key s.km
      summary_attempt_loop env prompt url n p.1 { s with km := p.2 } evs2
    | CompletionResult.otherError _ => (none, llmKey, s, evs2)

/-- Model of `analyze_content_with_retry(url, topic, analysis_llm_instance)`:
fetch the content by URL shape; when it is usable, record the URL as seen
and run the quota-failover summary loop; otherwise skip the URL without
recording it. -/
def analyze_content_with_retry (env : Env) (url topic : String) (llmKey : String)
    (s : AgentState) : Option String × String × AgentState × List Event :=
  let content := fetch_content env url
  let evs := [Event.fetchEv url]
  if usable_content content then
    let s1 := { s with db := add_url url topic s.db }
    summary_attempt_loop env (mk_summary_prompt content) url s1.km.keys.length llmKey s1 evs
  else (none, llmKey, s, evs)

/-- The in-flight accumulator of one run: the summary blocks, the successful
URL list, the current analysis LLM key, the threaded state, and the trace. -/
structure PassState where
  summaries : List String
  successful : List String
  llmKey : String
  state : AgentState
  events : List Event

/-- Model of the inner `process_urls(urls)` of `run_agent_task`: process each
URL not already on the successful list, keeping the LLM handle updated and
appending the summary block and URL on success. -/
def process_urls (env : Env) (topic : String) : List String → PassState → PassState
  | [], st => st
  | url :: rest, st =>
    if st.successful.contains url then process_urls env topic rest st
    else
      let r := analyze_content_with_retry env url topic st.llmKey st.state
      let st2 : PassState :=
        { st with llmKey := r.2.1, state := r.2.2.1, events := st.events ++ r.2.2.2 }
      let st3 :=
        match r.1 with
        | some text =>
          { st2 with summaries := st2.summaries ++ [text],
                     successful := st2.successful ++ [url] }
        | none => st2
      process_urls env topic rest st3

/-- The accumulator at the start of a cache-miss run: empty summary and
successful lists, the rotator cursor reset to index 0 (`key_manager.current_key_index = 0`),
the analysis handle bound to the then-current (first) key, and the discovery
query recorded. -/
def initial_pass_state (topic : String) (s : AgentState) : PassState :=
  { summaries := [], successful := [],
    llmKey := get_current_key { s.km with current_key_index := 0 },
    state := { db := s.db, km := { s.km with current_key_index := 0 } },
    events := [Event.searchEv topic] }

/-- The discovery extraction pass of `run_agent_task`:
`process_urls(urls_to_process)` over the filtered search results. -/
def primary_pass (env : Env) (topic : String) (s : AgentState) : PassState :=
  process_urls env topic (search_urls env topic) (initial_pass_state topic s)

/-- The discovery, extraction and fallback phases of `run_agent_task` after a
cache miss: run the primary pass, and when it produced no summaries re-run
the same pass over the previously seen URLs for the topic (if any). -/
def run_passes (env : Env) (topic : String) (s : AgentState) : PassState :=
  let st1 := primary_pass env topic s
  if st1.summaries = [] then
    let seen := get_seen_urls_for_topic topic st1.state.db
    if seen = [] then st1 else process_urls env topic seen st1
  else st1

/-- The persona directive table `PERSONA_PROMPTS` of `agent_logic.py`. -/
def PERSONA_PROMPTS : List (String × String) :=
  [("default", "Synthesize the following summaries into a comprehensive and objective overview."),
   ("marketing_manager", "Synthesize the following summaries into an executive briefing. Focus on market sentiment, competitive landscape, and customer pain points. Keep it concise and actionable."),
   ("academic_researcher", "Synthesize the following summaries into a literature review. Focus on new findings, methodologies, and potential gaps in the current research. Maintain a formal, analytical tone."),
   ("financial_investor", "Synthesize the following summaries into an investment thesis update. Focus on growth signals, potential risks, financial implications, and market sentiment. Be objective and data-driven."),
   ("content_creator", "Synthesize the following summaries into a set of story notes. Highlight surprising facts, interesting quotes, different angles, and key people involved. Make it engaging.")]

/-- Model of `PERSONA_PROMPTS.get(persona, PERSONA_PROMPTS["default"])`:
an exact (case-sensitive) dictionary lookup falling back to the `"default"`
entry.  The inner `""` arm models the `KeyError` Python would raise if the
`"default"` key were missing; the table contains it. -/
def persona_directive (persona : String) : String :=
  match PERSONA_PROMPTS.find? (fun kv => kv.1 == persona) with
  | some kv => kv.2
  | none =>
    match PERSONA_PROMPTS.find? (fun kv => kv.1 == "default") with
    | some kv => kv.2
    | none => ""

/-- The synthesis prompt built from the persona directive, the topic, and the
concatenation (`''.join`) of all summary blocks. -/
def mk_synthesis_prompt (directive topic : String) (summaries : List String) : String :=
  directive ++ "\nOriginal User Query: \"" ++ topic ++
  "\"\nHere are the summaries from the sources:\n" ++ String.join summaries ++
  "\nBased on ALL summaries, provide a final answer."

/-- The quota-failover loop of the synthesis phase
(`for _ in range(len(key_manager.keys))`): invoke the synthesis executor; on
success extract the `output` slot (defaulting to `'Could not generate
report.'`), cache the report under the case-folded key and return it with the
successful URLs; on `ResourceExhausted` advance the rotator and rebuild the
handle; on any other exception return an error report.  Falling out of the
loop returns the all-keys-exhausted report.  Sources are returned as the
Python list value of the successful URLs. -/
def synthesis_attempt_loop (env : Env) (topic persona prompt : String)
    (successful : List String) :
    Nat → String → AgentState → List Event →
    CachedRecord × AgentState × List Event
  | 0, _, s, evs =>
    ({ report := "Failed to synthesize a report after exhausting all API keys.",
       sources := JsonVal.arr (successful.map JsonVal.str) }, s, evs)
  | n + 1, llmKey, s, evs =>
    let evs2 := evs ++ [Event.synthAttempt llmKey prompt]
    match env.completeSynthesis llmKey prompt with
    | SynthResult.success output =>
      let text := output.getD "Could not generate report."
      let db2 := cache_report topic persona text successful s.db
      ({ report := text, sources := JsonVal.arr (successful.map JsonVal.str) },
       { s with db := db2 }, evs2)
    | SynthResult.quotaExhausted =>
      let p := get_next_key s.km
      synthesis_attempt_loop env topic persona prompt successful n p.1 { s with km := p.2 } evs2
    | SynthResult.otherError msg =>
      ({ report := "Error during final synthesis: " ++ msg,
         sources := JsonVal.arr (successful.map JsonVal.str) }, s, evs2)

/-- The synthesis phase of `run_agent_task`: resolve the persona directive,
build the synthesis prompt, and start the failover loop with a handle bound
to the rotator's current key (the cursor is not reset here). -/
def synthesis_phase (env : Env) (topic persona : String) (st : PassState) :
    CachedRecord × AgentState × List Event :=
  let prompt := mk_synthesis_prompt (persona_directive persona) topic st.summaries
  synthesis_attempt_loop env topic persona prompt st.successful
    st.state.km.keys.length (get_current_key st.state.km) st.state st.events

/-- Model of `run_agent_task(topic, persona)`: return the cached record
immediately on a cache hit; otherwise run discovery/extraction/fallback and
either synthesize (caching on success) or return the no-information report
with an empty source list (which is not cached).  Returns the result record,
the final state, and the trace of observable operations. -/
def run_agent_task (env : Env) (topic persona : String) (s : AgentState) :
    CachedRecord × AgentState × List Event :=
  match get_cached_report topic persona s.db with
  | some cached => (cached, s, [])
  | none =>
    let st := run_passes env topic s
    if st.summaries = [] then
      ({ report := "No new or recoverable information was found to create a report.",
         sources := JsonVal.arr [] }, st.state, st.events)
    else synthesis_phase env topic persona st

/-- Number of content-fetch events for a given URL in a trace. -/
def count_fetch (u : String) (evs : List Event) : Nat :=
  (evs.filter (fun e => decide (e = Event.fetchEv u))).length

/-- Number of summary completion attempts in a trace. -/
def count_summary_attempts (evs : List Event) : Nat :=
  (evs.filter (fun e => match e with | Event.summaryAttempt _ _ => true | _ => false)).length

/-- Number of synthesis completion attempts in a trace. -/
def count_synth_attempts (evs : List Event) : Nat :=
  (evs.filter (fun e => match e with | Event.synthAttempt _ _ => true | _ => false)).length

theorem count_fetch_append (u : String) (a b : List Event) :
    count_fetch u (a ++ b) = count_fetch u a + count_fetch u b := by
  simp [count_fetch, List.filter_append]

theorem count_summary_attempts_append (a b : List Event) :
    count_summary_attempts (a ++ b) =
      count_summary_attempts a + count_summary_attempts b := by
  simp [count_summary_attempts, List.filter_append]

theorem count_synth_attempts_append (a b : List Event) :
    count_synth_attempts (a ++ b) = count_synth_attempts a + count_synth_attempts b := by
  simp [count_synth_attempts, List.filter_append]

theorem count_fetch_of_no_fetch (u : String) (l : List Event)
    (h : ∀ e ∈ l, ∀ v, e ≠ Event.fetchEv v) : count_fetch u l = 0 := by
  have hnil : l.filter (fun e => decide (e = Event.fetchEv u)) = [] := by
    rw [List.filter_eq_nil_iff]
    intro e he
    simp [h e he u]
  simp [count_fetch, hnil]

theorem count_synth_of_no_synth (l : List Event)
    (h : ∀ e ∈ l, ∀ k p, e ≠ Event.synthAttempt k p) : count_synth_attempts l = 0 := by
  have hnil : l.filter
      (fun e => match e with | Event.synthAttempt _ _ => true | _ => false) = [] := by
    rw [List.filter_eq_nil_iff]
    intro e he
    cases e with
    | synthAttempt k p => exact absurd rfl (h _ he k p)
    | searchEv q => simp
    | fetchEv v => simp
    | summaryAttempt k p => simp
  simp [count_synth_attempts, hnil]

theorem summary_attempt_loop_events (env : Env) (prompt url : String) :
    ∀ (n : Nat) (k : String) (s : AgentState) (evs : List Event),
      ∃ tail, (summary_attempt_loop env prompt url n k s evs).2.2.2 = evs ++ tail ∧
        ∀ e ∈ tail, ∃ k2, e = Event.summaryAttempt k2 prompt := by
  intro n
  induction n with
  | zero =>
    intro k s evs
    exact ⟨[], by simp [summary_attempt_loop], by simp⟩
  | succ m ih =>
    intro k s evs
    cases h : env.completeSummary k prompt with
    | success t =>
      exact ⟨[Event.summaryAttempt k prompt], by simp [summary_attempt_loop, h], by simp⟩
    | quotaExhausted =>
      obtain ⟨tail, ht, hall⟩ :=
        ih (get_next_key s.km).1 { s with km := (get_next_key s.km).2 }
          (evs ++ [Event.summaryAttempt k prompt])
      refine ⟨Event.summaryAttempt k prompt :: tail, ?_, ?_⟩
      · simp only [summary_attempt_loop, h]
        rw [ht]
        simp
      · intro e he
        rcases List.mem_cons.mp he with rfl | hmem
        · exact ⟨k, rfl⟩
        · exact hall e hmem
    | otherError msg =>
      exact ⟨[Event.summaryAttempt k prompt], by simp [summary_attempt_loop, h], by simp⟩

theorem summary_attempt_loop_db (env : Env) (prompt url : String) :
    ∀ (n : Nat) (k : String) (s : AgentState) (evs : List Event),
      (summary_attempt_loop env prompt url n k s evs).2.2.1.db = s.db := by
  intro n
  induction n with
  | zero => intro k s evs; simp [summary_attempt_loop]
  | succ m ih =>
    intro k s evs
    cases h : env.completeSummary k prompt with
    | success t => simp [summary_attempt_loop, h]
    | quotaExhausted => simp only [summary_attempt_loop, h]; exact ih _ _ _
    | otherError msg => simp [summary_attempt_loop, h]

theorem summary_attempt_loop_keys (env : Env) (prompt url : String) :
    ∀ (n : Nat) (k : String) (s : AgentState) (evs : List Event),
      (summary_attempt_loop env prompt url n k s evs).2.2.1.km.keys = s.km.keys := by
  intro n
  induction n with
  | zero => intro k s evs; simp [summary_attempt_loop]
  | succ m ih =>
    intro k s evs
    cases h : env.completeSummary k prompt with
    | success t => simp [summary_attempt_loop, h]
    | quotaExhausted =>
      simp only [summary_attempt_loop, h]
      rw [ih]
      rfl
    | otherError msg => simp [summary_attempt_loop, h]

theorem add_url_cache (url topic : String) (db : DB) :
    (add_url url topic db).cache = db.cache := by
  unfold add_url
  split <;> rfl

theorem analyze_events (env : Env) (url topic k : String) (s : AgentState) :
    ∃ tail, (analyze_content_with_retry env url topic k s).2.2.2 = Event.fetchEv url :: tail ∧
      ∀ e ∈ tail, ∃ k2 p2, e = Event.summaryAttempt k2 p2 := by
  unfold analyze_content_with_retry
  cases hu : usable_content (fetch_content env url) with
  | true =>
    simp only [hu, if_true]
    obtain ⟨tail, ht, hall⟩ :=
      summary_attempt_loop_events env (mk_summary_prompt (fetch_content env url)) url
        ({ s with db := add_url url topic s.db } : AgentState).km.keys.length k
        { s with db := add_url url topic s.db } [Event.fetchEv url]
    exact ⟨tail, by simpa using ht, fun e he => by
      obtain ⟨k2, rfl⟩ := hall e he
      exact ⟨k2, _, rfl⟩⟩
  | false =>
    exact ⟨[], by simp [hu], by simp⟩

theorem analyze_cache (env : Env) (url topic k : String) (s : AgentState) :
    (analyze_content_with_retry env url topic k s).2.2.1.db.cache = s.db.cache := by
  unfold analyze_content_with_retry
  cases hu : usable_content (fetch_content env url) with
  | true =>
    simp only [hu, if_true]
    rw [summary_attempt_loop_db]
    exact add_url_cache url topic s.db
  | false => simp [hu]

theorem analyze_keys (env : Env) (url topic k : String) (s : AgentState) :
    (analyze_content_with_retry env url topic k s).2.2.1.km.keys = s.km.keys := by
  unfold analyze_content_with_retry
  cases hu : usable_content (fetch_content env url) with
  | true =>
    simp only [hu, if_true]
    rw [summary_attempt_loop_keys]
  | false => simp [hu]

theorem analyze_count_fetch (env : Env) (url topic k : String) (s : AgentState) (u : String) :
    count_fetch u (analyze_content_with_retry env url topic k s).2.2.2 =
      if u = url then 1 else 0 := by
  obtain ⟨tail, ht, hall⟩ := analyze_events env url topic k s
  rw [ht]
  have h0 : count_fetch u tail = 0 :=
    count_fetch_of_no_fetch u tail (fun e he v => by
      obtain ⟨k2, p2, rfl⟩ := hall e he
      simp)
  have hcons : (Event.fetchEv url :: tail) = [Event.fetchEv url] ++ tail := rfl
  rw [hcons, count_fetch_append, h0]
  by_cases hu : u = url
  · subst hu; simp [count_fetch]
  · simp [count_fetch, hu]
    intro hcontra
    exact absurd hcontra.symm hu

theorem process_urls_events (env : Env) (topic : String) :
    ∀ (urls : List String) (st : PassState),
      ∃ tail, (process_urls env topic urls st).events = st.events ++ tail ∧
        ∀ e ∈ tail, (∃ u, u ∈ urls ∧ e = Event.fetchEv u) ∨
          ∃ k2 p2, e = Event.summaryAttempt k2 p2 := by
  intro urls
  induction urls with
  | nil =>
    intro st
    exact ⟨[], by simp [process_urls], by simp⟩
  | cons url rest ih =>
    intro st
    by_cases hc : url ∈ st.successful
    · obtain ⟨tail, ht, hall⟩ := ih st
      refine ⟨tail, by simp [process_urls, hc, ht], ?_⟩
      intro e he
      rcases hall e he with ⟨u, hu, rfl⟩ | h2
      · exact Or.inl ⟨u, List.mem_cons_of_mem _ hu, rfl⟩
      · exact Or.inr h2
    · obtain ⟨atail, hat, hasum⟩ := analyze_events env url topic st.llmKey st.state
      cases hro : (analyze_content_with_retry env url topic st.llmKey st.state).1 with
      | some text =>
        obtain ⟨tail, ht, hall⟩ := ih
          { summaries := st.summaries ++ [text], successful := st.successful ++ [url],
            llmKey := (analyze_content_with_retry env url topic st.llmKey st.state).2.1,
            state := (analyze_content_with_retry env url topic st.llmKey st.state).2.2.1,
            events := st.events ++
              (analyze_content_with_retry env url topic st.llmKey st.state).2.2.2 }
        refine ⟨(analyze_content_with_retry env url topic st.llmKey st.state).2.2.2 ++ tail, ?_, ?_⟩
        · simp only [process_urls]
          rw [if_neg (by simpa using hc)]
          simp only [hro]
          rw [ht]
          simp
        · intro e he
          rcases List.mem_append.mp he with hmem | hmem
          · rw [hat] at hmem
            rcases List.mem_cons.mp hmem with rfl | hmem2
            · exact Or.inl ⟨url, List.mem_cons_self _ _, rfl⟩
            · exact Or.inr (hasum e hmem2)
          · rcases hall e hmem with ⟨u, hu, rfl⟩ | h2
            · exact Or.inl ⟨u, List.mem_cons_of_mem _ hu, rfl⟩
            · exact Or.inr h2
      | none =>
        obtain ⟨tail, ht, hall⟩ := ih
          { summaries := st.summaries, successful := st.successful,
            llmKey := (analyze_content_with_retry env url topic st.llmKey st.state).2.1,
            state := (analyze_content_with_retry env url topic st.llmKey st.state).2.2.1,
            events := st.events ++
              (analyze_content_with_retry env url topic st.llmKey st.state).2.2.2 }
        refine ⟨(analyze_content_with_retry env url topic st.llmKey st.state).2.2.2 ++ tail, ?_, ?_⟩
        · simp only [process_urls]
          rw [if_neg (by simpa using hc)]
          simp only [hro]
          rw [ht]
          simp
        · intro e he
          rcases List.mem_append.mp he with hmem | hmem
          · rw [hat] at hmem
            rcases List.mem_cons.mp hmem with rfl | hmem2
            · exact Or.inl ⟨url, List.mem_cons_self _ _, rfl⟩
            · exact Or.inr (hasum e hmem2)
          · rcases hall e hmem with ⟨u, hu, rfl⟩ | h2
            · exact Or.inl ⟨u, List.mem_cons_of_mem _ hu, rfl⟩
            · exact Or.inr h2

theorem process_urls_cache (env : Env) (topic : String) :
    ∀ (urls : List String) (st : PassState),
      (process_urls env topic urls st).state.db.cache = st.state.db.cache := by
  intro urls
  induction urls with
  | nil => intro st; simp [process_urls]
  | cons url rest ih =>
    intro st
    by_cases hc : url ∈ st.successful
    · simp only [process_urls]
      rw [if_pos (by simpa using hc)]
      exact ih st
    · simp only [process_urls]
      rw [if_neg (by simpa using hc)]
      cases hro : (analyze_content_with_retry env url topic st.llmKey st.state).1 with
      | some text =>
        simp only [hro]
        rw [ih]
        exact analyze_cache env url topic st.llmKey st.state
      | none =>
        simp only [hro]
        rw [ih]
        exact analyze_cache env url topic st.llmKey st.state

theorem process_urls_keys (env : Env) (topic : String) :
    ∀ (urls : List String) (st : PassState),
      (process_urls env topic urls st).state.km.keys = st.state.km.keys := by
  intro urls
  induction urls with
  | nil => intro st; simp [process_urls]
  | cons url rest ih =>
    intro st
    by_cases hc : url ∈ st.successful
    · simp only [process_urls]
      rw [if_pos (by simpa using hc)]
      exact ih st
    · simp only [process_urls]
      rw [if_neg (by simpa using hc)]
      cases hro : (analyze_content_with_retry env url topic st.llmKey st.state).1 with
      | some text =>
        simp only [hro]
        rw [ih]
        exact analyze_keys env url topic st.llmKey st.state
      | none =>
        simp only [hro]
        rw [ih]
        exact analyze_keys env url topic st.llmKey st.state

theorem process_urls_pairing (env : Env) (topic : String) :
    ∀ (urls : List String) (st : PassState),
      (process_urls env topic urls st).summaries.length + st.successful.length =
        (process_urls env topic urls st).successful.length + st.summaries.length := by
  intro urls
  induction urls with
  | nil => intro st; simp [process_urls]; omega
  | cons url rest ih =>
    intro st
    by_cases hc : url ∈ st.successful
    · simp only [process_urls]
      rw [if_pos (by simpa using hc)]
      exact ih st
    · simp only [process_urls]
      rw [if_neg (by simpa using hc)]
      cases hro : (analyze_content_with_retry env url topic st.llmKey st.state).1 with
      | some text =>
        simp only [hro]
        have h := ih
          { summaries := st.summaries ++ [text], successful := st.successful ++ [url],
            llmKey := (analyze_content_with_retry env url topic st.llmKey st.state).2.1,
            state := (analyze_content_with_retry env url topic st.llmKey st.state).2.2.1,
            events := st.events ++
              (analyze_content_with_retry env url topic st.llmKey st.state).2.2.2 }
        simp only [List.length_append, List.length_cons, List.length_nil] at h ⊢
        omega
      | none =>
        simp only [hro]
        exact ih _

theorem process_urls_count_fetch_zero (env : Env) (topic u : String) :
    ∀ (urls : List String) (st : PassState), u ∉ urls →
      count_fetch u (process_urls env topic urls st).events = count_fetch u st.events := by
  intro urls
  induction urls with
  | nil => intro st _; simp [process_urls]
  | cons url rest ih =>
    intro st hu
    have hne : url ≠ u := fun h => hu (h ▸ List.mem_cons_self _ _)
    have hrest : u ∉ rest := fun h => hu (List.mem_cons_of_mem _ h)
    by_cases hc : url ∈ st.successful
    · simp only [process_urls]
      rw [if_pos (by simpa using hc)]
      exact ih st hrest
    · simp only [process_urls]
      rw [if_neg (by simpa using hc)]
      have hA : count_fetch u (analyze_content_with_retry env url topic st.llmKey st.state).2.2.2 = 0 := by
        rw [analyze_count_fetch, if_neg (Ne.symm hne)]
      cases hro : (analyze_content_with_retry env url topic st.llmKey st.state).1 with
      | some text =>
        simp only [hro]
        rw [ih _ hrest]
        simp only [count_fetch_append, hA, Nat.add_zero]
      | none =>
        simp only [hro]
        rw [ih _ hrest]
        simp only [count_fetch_append, hA, Nat.add_zero]

theorem process_urls_count_fetch_one (env : Env) (topic u : String) :
    ∀ (urls : List String) (st : PassState), u ∉ st.successful → urls.count u = 1 →
      count_fetch u (process_urls env topic urls st).events = count_fetch u st.events + 1 := by
  intro urls
  induction urls with
  | nil => intro st _ hcount; simp at hcount
  | cons url rest ih =>
    intro st hsucc hcount
    rw [List.count_cons] at hcount
    by_cases huu : url = u
    · have hbeq : (url == u) = true := by simpa using huu
      rw [hbeq, if_pos rfl] at hcount
      have hrest0 : rest.count u = 0 := by omega
      have hrestmem : u ∉ rest := by
        intro hmem
        have := List.count_pos_iff.mpr hmem
        omega
      subst huu
      simp only [process_urls]
      rw [if_neg (by simpa using hsucc)]
      have hA : count_fetch url (analyze_content_with_retry env url topic st.llmKey st.state).2.2.2 = 1 := by
        rw [analyze_count_fetch, if_pos rfl]
      cases hro : (analyze_content_with_retry env url topic st.llmKey st.state).1 with
      | some text =>
        simp only [hro]
        rw [process_urls_count_fetch_zero env topic url rest _ hrestmem]
        simp only [count_fetch_append, hA]
      | none =>
        simp only [hro]
        rw [process_urls_count_fetch_zero env topic url rest _ hrestmem]
        simp only [count_fetch_append, hA]
    · have hbeq : (url == u) = false := by simpa using huu
      rw [hbeq] at hcount
      simp only [Bool.false_eq_true, if_false] at hcount
      have hrest1 : rest.count u = 1 := by omega
      by_cases hc : url ∈ st.successful
      · simp only [process_urls]
        rw [if_pos (by simpa using hc)]
        exact ih st hsucc hrest1
      · simp only [process_urls]
        rw [if_neg (by simpa using hc)]
        have hA : count_fetch u (analyze_content_with_retry env url topic st.llmKey st.state).2.2.2 = 0 := by
          rw [analyze_count_fetch, if_neg (fun h : u = url => huu h.symm)]
        cases hro : (analyze_content_with_retry env url topic st.llmKey st.state).1 with
        | some text =>
          simp only [hro]
          rw [ih _ (by
            simp only [List.mem_append, List.mem_singleton]
            rintro (h | h)
            · exact hsucc h
            · exact huu h.symm) hrest1]
          simp only [count_fetch_append, hA, Nat.add_zero]
        | none =>
          simp only [hro]
          rw [ih _ (by simpa using hsucc) hrest1]
          simp only [count_fetch_append, hA, Nat.add_zero]

theorem synthesis_attempt_loop_events (env : Env) (topic persona prompt : String)
    (successful : List String) :
    ∀ (n : Nat) (k : String) (s : AgentState) (evs : List Event),
      ∃ tail, (synthesis_attempt_loop env topic persona prompt successful n k s evs).2.2 =
          evs ++ tail ∧
        ∀ e ∈ tail, ∃ k2, e = Event.synthAttempt k2 prompt := by
  intro n
  induction n with
  | zero =>
    intro k s evs
    exact ⟨[], by simp [synthesis_attempt_loop], by simp⟩
  | succ m ih =>
    intro k s evs
    cases h : env.completeSynthesis k prompt with
    | success output =>
      exact ⟨[Event.synthAttempt k prompt], by simp [synthesis_attempt_loop, h], by simp⟩
    | quotaExhausted =>
      obtain ⟨tail, ht, hall⟩ :=
        ih (get_next_key s.km).1 { s with km := (get_next_key s.km).2 }
          (evs ++ [Event.synthAttempt k prompt])
      refine ⟨Event.synthAttempt k prompt :: tail, ?_, ?_⟩
      · simp only [synthesis_attempt_loop, h]
        rw [ht]
        simp
      · intro e he
        rcases List.mem_cons.mp he with rfl | hmem
        · exact ⟨k, rfl⟩
        · exact hall e hmem
    | otherError msg =>
      exact ⟨[Event.synthAttempt k prompt], by simp [synthesis_attempt_loop, h], by simp⟩

theorem synthesis_attempt_loop_first_event (env : Env) (topic persona prompt : String)
    (successful : List String) (m : Nat) (k : String) (s : AgentState) (evs : List Event) :
    ∃ tail, (synthesis_attempt_loop env topic persona prompt successful (m + 1) k s evs).2.2 =
        evs ++ Event.synthAttempt k prompt :: tail := by
  cases h : env.completeSynthesis k prompt with
  | success output =>
    exact ⟨[], by simp [synthesis_attempt_loop, h]⟩
  | quotaExhausted =>
    obtain ⟨tail, ht, hall⟩ :=
      synthesis_attempt_loop_events env topic persona prompt successful m
        (get_next_key s.km).1 { s with km := (get_next_key s.km).2 }
        (evs ++ [Event.synthAttempt k prompt])
    refine ⟨tail, ?_⟩
    simp only [synthesis_attempt_loop, h]
    rw [ht]
    simp
  | otherError msg =>
    exact ⟨[], by simp [synthesis_attempt_loop, h]⟩

theorem summary_attempt_loop_all_quota (env : Env) (prompt url : String)
    (hq : ∀ k, env.completeSummary k prompt = CompletionResult.quotaExhausted) :
    ∀ (n : Nat) (k : String) (s : AgentState) (evs : List Event),
      (summary_attempt_loop env prompt url n k s evs).1 = none ∧
      count_summary_attempts (summary_attempt_loop env prompt url n k s evs).2.2.2 =
        count_summary_attempts evs + n := by
  intro n
  induction n with
  | zero => intro k s evs; exact ⟨by simp [summary_attempt_loop], by simp [summary_attempt_loop]⟩
  | succ m ih =>
    intro k s evs
    obtain ⟨ih1, ih2⟩ := ih (get_next_key s.km).1 { s with km := (get_next_key s.km).2 }
      (evs ++ [Event.summaryAttempt k prompt])
    constructor
    · simp only [summary_attempt_loop, hq k]
      exact ih1
    · simp only [summary_attempt_loop, hq k]
      rw [ih2, count_summary_attempts_append]
      simp [count_summary_attempts]
      omega

theorem synthesis_attempt_loop_all_quota (env : Env) (topic persona prompt : String)
    (successful : List String)
    (hq : ∀ k, env.completeSynthesis k prompt = SynthResult.quotaExhausted) :
    ∀ (n : Nat) (k : String) (s : AgentState) (evs : List Event),
      (synthesis_attempt_loop env topic persona prompt successful n k s evs).1 =
        { report := "Failed to synthesize a report after exhausting all API keys.",
          sources := JsonVal.arr (successful.map JsonVal.str) } ∧
      count_synth_attempts (synthesis_attempt_loop env topic persona prompt successful n k s evs).2.2 =
        count_synth_attempts evs + n := by
  intro n
  induction n with
  | zero =>
    intro k s evs
    exact ⟨by simp [synthesis_attempt_loop], by simp [synthesis_attempt_loop]⟩
  | succ m ih =>
    intro k s evs
    obtain ⟨ih1, ih2⟩ := ih (get_next_key s.km).1 { s with km := (get_next_key s.km).2 }
      (evs ++ [Event.synthAttempt k prompt])
    constructor
    · simp only [synthesis_attempt_loop, hq k]
      exact ih1
    · simp only [synthesis_attempt_loop, hq k]
      rw [ih2, count_synth_attempts_append]
      simp [count_synth_attempts]
      omega

theorem summary_attempt_loop_rotation (env : Env) (prompt url : String) (keys : List String)
    (t : String)
    (hsucc : env.completeSummary (keys.getD (keys.length - 1) "") prompt =
      CompletionResult.success t) :
    ∀ (n c : Nat) (db : DB) (evs : List Event),
      c + n = keys.length → 0 < n →
      (∀ i, c ≤ i → i + 1 < keys.length →
        env.completeSummary (keys.getD i "") prompt = CompletionResult.quotaExhausted) →
      (summary_attempt_loop env prompt url n (keys.getD c "")
          { db := db, km := { keys := keys, current_key_index := c } } evs).1 =
        some ("Source: " ++ url ++ "\nSummary: " ++ t ++ "\n---") ∧
      (summary_attempt_loop env prompt url n (keys.getD c "")
          { db := db, km := { keys := keys, current_key_index := c } } evs).2.2.1 =
        { db := db, km := { keys := keys, current_key_index := keys.length - 1 } } ∧
      count_summary_attempts (summary_attempt_loop env prompt url n (keys.getD c "")
          { db := db, km := { keys := keys, current_key_index := c } } evs).2.2.2 =
        count_summary_attempts evs + n := by
  intro n
  induction n with
  | zero => intro c db evs _ habs; omega
  | succ m ih =>
    intro c db evs hlen _ hq
    rcases Nat.eq_zero_or_pos m with hm | hm
    · subst hm
      have hc : c = keys.length - 1 := by omega
      subst hc
      simp only [summary_attempt_loop]
      rw [hsucc]
      refine ⟨rfl, rfl, ?_⟩
      rw [count_summary_attempts_append]
      simp [count_summary_attempts]
    · have hclt : c + 1 < keys.length := by omega
      have hqc : env.completeSummary (keys.getD c "") prompt =
          CompletionResult.quotaExhausted := hq c le_rfl (by omega)
      have hmod : (c + 1) % keys.length = c + 1 := Nat.mod_eq_of_lt hclt
      have hstep : summary_attempt_loop env prompt url (m + 1) (keys.getD c "")
            { db := db, km := { keys := keys, current_key_index := c } } evs =
          summary_attempt_loop env prompt url m (keys.getD (c + 1) "")
            { db := db, km := { keys := keys, current_key_index := c + 1 } }
            (evs ++ [Event.summaryAttempt (keys.getD c "") prompt]) := by
        simp only [summary_attempt_loop, hqc, get_next_key, get_current_key]
        simp only [hmod]
      rw [hstep]
      obtain ⟨ih1, ih2, ih3⟩ := ih (c + 1) db
        (evs ++ [Event.summaryAttempt (keys.getD c "") prompt]) (by omega) hm
        (fun i hi hlt => hq i (by omega) hlt)
      refine ⟨ih1, ih2, ?_⟩
      rw [ih3, count_summary_attempts_append]
      simp [count_summary_attempts]
      omega

theorem synthesis_attempt_loop_rotation (env : Env) (topic persona prompt : String)
    (successful : List String) (keys : List String) (out : Option String)
    (hsucc : env.completeSynthesis (keys.getD (keys.length - 1) "") prompt =
      SynthResult.success out) :
    ∀ (n c : Nat) (db : DB) (evs : List Event),
      c + n = keys.length → 0 < n →
      (∀ i, c ≤ i → i + 1 < keys.length →
        env.completeSynthesis (keys.getD i "") prompt = SynthResult.quotaExhausted) →
      (synthesis_attempt_loop env topic persona prompt successful n (keys.getD c "")
          { db := db, km := { keys := keys, current_key_index := c } } evs).1 =
        { report := out.getD "Could not generate report.",
          sources := JsonVal.arr (successful.map JsonVal.str) } ∧
      (synthesis_attempt_loop env topic persona prompt successful n (keys.getD c "")
          { db := db, km := { keys := keys, current_key_index := c } } evs).2.1 =
        { db := cache_report topic persona (out.getD "Could not generate report.") successful db,
          km := { keys := keys, current_key_index := keys.length - 1 } } ∧
      count_synth_attempts (synthesis_attempt_loop env topic persona prompt successful n
          (keys.getD c "") { db := db, km := { keys := keys, current_key_index := c } } evs).2.2 =
        count_synth_attempts evs + n := by
  intro n
  induction n with
  | zero => intro c db evs _ habs; omega
  | succ m ih =>
    intro c db evs hlen _ hq
    rcases Nat.eq_zero_or_pos m with hm | hm
    · subst hm
      have hc : c = keys.length - 1 := by omega
      subst hc
      simp only [synthesis_attempt_loop]
      rw [hsucc]
      refine ⟨rfl, rfl, ?_⟩
      rw [count_synth_attempts_append]
      simp [count_synth_attempts]
    · have hclt : c + 1 < keys.length := by omega
      have hqc : env.completeSynthesis (keys.getD c "") prompt =
          SynthResult.quotaExhausted := hq c le_rfl (by omega)
      have hmod : (c + 1) % keys.length = c + 1 := Nat.mod_eq_of_lt hclt
      have hstep : synthesis_attempt_loop env topic persona prompt successful (m + 1)
            (keys.getD c "") { db := db, km := { keys := keys, current_key_index := c } } evs =
          synthesis_attempt_loop env topic persona prompt successful m (keys.getD (c + 1) "")
            { db := db, km := { keys := keys, current_key_index := c + 1 } }
            (evs ++ [Event.synthAttempt (keys.getD c "") prompt]) := by
        simp only [synthesis_attempt_loop, hqc, get_next_key, get_current_key]
        simp only [hmod]
      rw [hstep]
      obtain ⟨ih1, ih2, ih3⟩ := ih (c + 1) db
        (evs ++ [Event.synthAttempt (keys.getD c "") prompt]) (by omega) hm
        (fun i hi hlt => hq i (by omega) hlt)
      refine ⟨ih1, ih2, ?_⟩
      rw [ih3, count_synth_attempts_append]
      simp [count_synth_attempts]
      omega

theorem get_cached_report_congr (topic persona : String) (db db2 : DB)
    (h : db.cache = db2.cache) :
    get_cached_report topic persona db = get_cached_report topic persona db2 := by
  simp only [get_cached_report, h]

theorem run_passes_cache (env : Env) (topic : String) (s : AgentState) :
    (run_passes env topic s).state.db.cache = s.db.cache := by
  have h1 : (primary_pass env topic s).state.db.cache = s.db.cache := by
    unfold primary_pass
    rw [process_urls_cache]
    rfl
  by_cases hsum : (primary_pass env topic s).summaries = []
  · by_cases hseen : get_seen_urls_for_topic topic (primary_pass env topic s).state.db = []
    · simp only [run_passes, hsum, hseen, if_true]
      exact h1
    · simp only [run_passes, hsum, if_true, if_neg hseen]
      rw [process_urls_cache]
      exact h1
  · simp only [run_passes, if_neg hsum]
    exact h1

theorem run_passes_keys (env : Env) (topic : String) (s : AgentState) :
    (run_passes env topic s).state.km.keys = s.km.keys := by
  have h1 : (primary_pass env topic s).state.km.keys = s.km.keys := by
    unfold primary_pass
    rw [process_urls_keys]
    rfl
  by_cases hsum : (primary_pass env topic s).summaries = []
  · by_cases hseen : get_seen_urls_for_topic topic (primary_pass env topic s).state.db = []
    · simp only [run_passes, hsum, hseen, if_true]
      exact h1
    · simp only [run_passes, hsum, if_true, if_neg hseen]
      rw [process_urls_keys]
      exact h1
  · simp only [run_passes, if_neg hsum]
    exact h1

theorem run_passes_events (env : Env) (topic : String) (s : AgentState) :
    ∃ tail, (run_passes env topic s).events = Event.searchEv topic :: tail ∧
      ∀ e ∈ tail, (∃ u, e = Event.fetchEv u) ∨ ∃ k2 p2, e = Event.summaryAttempt k2 p2 := by
  obtain ⟨tail1, ht1, hall1⟩ :=
    process_urls_events env topic (search_urls env topic) (initial_pass_state topic s)
  have hinit : (initial_pass_state topic s).events = [Event.searchEv topic] := rfl
  obtain ⟨ptail, hpt, hpall⟩ :
      ∃ tail, (primary_pass env topic s).events = Event.searchEv topic :: tail ∧
        ∀ e ∈ tail, (∃ u, e = Event.fetchEv u) ∨ ∃ k2 p2, e = Event.summaryAttempt k2 p2 := by
    refine ⟨tail1, ?_, ?_⟩
    · unfold primary_pass
      rw [ht1, hinit]
      rfl
    · intro e he
      rcases hall1 e he with ⟨u, _, rfl⟩ | h2
      · exact Or.inl ⟨u, rfl⟩
      · exact Or.inr h2
  by_cases hsum : (primary_pass env topic s).summaries = []
  · by_cases hseen : get_seen_urls_for_topic topic (primary_pass env topic s).state.db = []
    · simp only [run_passes, hsum, hseen, if_true]
      exact ⟨ptail, hpt, hpall⟩
    · simp only [run_passes, hsum, if_true, if_neg hseen]
      obtain ⟨tail2, ht2, hall2⟩ := process_urls_events env topic
        (get_seen_urls_for_topic topic (primary_pass env topic s).state.db)
        (primary_pass env topic s)
      refine ⟨ptail ++ tail2, ?_, ?_⟩
      · rw [ht2, hpt]
        rfl
      · intro e he
        rcases List.mem_append.mp he with hmem | hmem
        · exact hpall e hmem
        · rcases hall2 e hmem with ⟨u, _, rfl⟩ | h2
          · exact Or.inl ⟨u, rfl⟩
          · exact Or.inr h2
  · simp only [run_passes, if_neg hsum]
    exact ⟨ptail, hpt, hpall⟩

theorem run_agent_task_miss (env : Env) (topic persona : String) (s : AgentState)
    (h : get_cached_report topic persona s.db = none) :
    run_agent_task env topic persona s =
      if (run_passes env topic s).summaries = [] then
        ({ report := "No new or recoverable information was found to create a report.",
           sources := JsonVal.arr [] }, (run_passes env topic s).state,
         (run_passes env topic s).events)
      else synthesis_phase env topic persona (run_passes env topic s) := by
  simp only [run_agent_task, h]

/-- Number of rows of the seen-URL store holding exactly the (url, case-folded
topic) pair. -/
def seen_pair_count (url topic : String) (db : DB) : Nat :=
  (db.seen_urls.filter (fun r => r.1 == url && r.2 == pyLower topic)).length

theorem check_iff_pair_count (url topic : String) (db : DB) :
    check_if_url_exists url topic db = true ↔ 0 < seen_pair_count url topic db := by
  unfold check_if_url_exists seen_pair_count
  rw [List.any_eq_true, List.length_pos, Ne, List.filter_eq_nil_iff]
  push_neg
  simp

/-- C1: for every topic and persona for which the cache holds a record,
`run(topic, persona)` returns that cached record immediately, with the state
unchanged and an empty operation trace (no discovery, extraction or
synthesis); hence a second call with no intervening state change returns the
identical result, again with no discovery/extraction/synthesis work. -/
theorem C1_cache_hit_fast_path (env : Env) (topic persona : String) (s : AgentState)
    (r : CachedRecord) (h : get_cached_report topic persona s.db = some r) :
    run_agent_task env topic persona s = (r, s, []) ∧
    run_agent_task env topic persona (run_agent_task env topic persona s).2.1 = (r, s, []) := by
  have h1 : run_agent_task env topic persona s = (r, s, []) := by
    simp [run_agent_task, h]
  refine ⟨h1, ?_⟩
  rw [h1]
  exact h1

/-- An environment with no search results and trivially failing collaborators,
for exercising the cache fast path. -/
def envNoop : Env :=
  { search := fun _ => [],
    fetchYoutube := fun _ => "", fetchPdf := fun _ => "", fetchScrape := fun _ => "",
    completeSummary := fun _ _ => CompletionResult.quotaExhausted,
    completeSynthesis := fun _ _ => SynthResult.quotaExhausted }

/-- A state whose cache holds a record for ("t", "p"). -/
def stateC1 : AgentState :=
  { db := { seen_urls := [],
            cache := [{ topic := "t", persona := "p", report := "rep", sources := some "[]" }] },
    km := { keys := ["k"], current_key_index := 0 } }

theorem C1_witness :
    get_cached_report "t" "p" stateC1.db =
      some { report := "rep", sources := JsonVal.arr [] } ∧
    run_agent_task envNoop "t" "p" stateC1 =
      ({ report := "rep", sources := JsonVal.arr [] }, stateC1, []) ∧
    run_agent_task envNoop "t" "p" (run_agent_task envNoop "t" "p" stateC1).2.1 =
      ({ report := "rep", sources := JsonVal.arr [] }, stateC1, []) := by
  have h : get_cached_report "t" "p" stateC1.db =
      some { report := "rep", sources := JsonVal.arr [] } := rfl
  obtain ⟨h1, h2⟩ := C1_cache_hit_fast_path envNoop "t" "p" stateC1 _ h
  exact ⟨h, h1, h2⟩

/-- C7: recording the same (url, topic) pair any number of times leaves
exactly one row for it: `add_url` is a no-op when the pair is already
recorded and appends the single row otherwise, and the at-most-one-row
invariant for any pair is preserved by every `add_url` call. -/
theorem C7_record_url_unique (url topic : String) (db : DB) (n : Nat) :
    (check_if_url_exists url topic db = true → add_url url topic db = db) ∧
    (check_if_url_exists url topic db = false →
      (add_url url topic db).seen_urls = db.seen_urls ++ [(url, pyLower topic)]) ∧
    (∀ url2 topic2, seen_pair_count url topic db ≤ 1 →
      seen_pair_count url topic (add_url url2 topic2 db) ≤ 1) ∧
    (seen_pair_count url topic db ≤ 1 →
      seen_pair_count url topic ((add_url url topic)^[n + 1] db) = 1) := by
  have hone : ∀ db2 : DB, seen_pair_count url topic db2 ≤ 1 →
      seen_pair_count url topic (add_url url topic db2) = 1 := by
    intro db2 hle
    cases hchk : check_if_url_exists url topic db2 with
    | true =>
      have hpos := (check_iff_pair_count url topic db2).mp hchk
      have : add_url url topic db2 = db2 := by simp [add_url, hchk]
      rw [this]
      omega
    | false =>
      have hzero : seen_pair_count url topic db2 = 0 := by
        by_contra hnz
        have : check_if_url_exists url topic db2 = true :=
          (check_iff_pair_count url topic db2).mpr (by omega)
        rw [hchk] at this
        exact Bool.false_ne_true this
      have hseen : (add_url url topic db2).seen_urls =
          db2.seen_urls ++ [(url, pyLower topic)] := by simp [add_url, hchk]
      unfold seen_pair_count at hzero ⊢
      rw [hseen, List.filter_append, List.length_append, hzero]
      simp
  refine ⟨fun h => by simp [add_url, h], fun h => by simp [add_url, h], ?_, ?_⟩
  · intro url2 topic2 hle
    cases hchk : check_if_url_exists url2 topic2 db with
    | true =>
      have : add_url url2 topic2 db = db := by simp [add_url, hchk]
      rw [this]
      exact hle
    | false =>
      have hseen : (add_url url2 topic2 db).seen_urls =
          db.seen_urls ++ [(url2, pyLower topic2)] := by simp [add_url, hchk]
      unfold seen_pair_count at hle ⊢
      rw [hseen, List.filter_append, List.length_append]
      by_cases hmatch : ((url2, pyLower topic2).1 == url &&
          (url2, pyLower topic2).2 == pyLower topic) = true
      · have heq : url2 = url ∧ pyLower topic2 = pyLower topic := by
          simpa using hmatch
        have hzero : (db.seen_urls.filter
            (fun r => r.1 == url && r.2 == pyLower topic)).length = 0 := by
          unfold check_if_url_exists at hchk
          rw [List.any_eq_false] at hchk
          rw [List.length_eq_zero, List.filter_eq_nil_iff]
          intro r hr
          have := hchk r hr
          rw [heq.1, heq.2] at this
          simpa using this
        rw [hzero]
        simp [hmatch]
      · simp only [List.filter_cons, List.filter_nil]
        rw [if_neg hmatch]
        simpa using hle
  · have hiter : ∀ (m : Nat) (db2 : DB), seen_pair_count url topic db2 ≤ 1 →
        seen_pair_count url topic ((add_url url topic)^[m + 1] db2) = 1 := by
      intro m
      induction m with
      | zero =>
        intro db2 hle
        rw [Function.iterate_one]
        exact hone db2 hle
      | succ k ih =>
        intro db2 hle
        rw [Function.iterate_succ_apply]
        exact ih (add_url url topic db2) (le_of_eq (hone db2 hle))
    exact hiter n db

/-- An empty store. -/
def dbEmpty : DB := { seen_urls := [], cache := [] }

/-- A store already holding the ("a", "t") seen pair. -/
def dbSeenA : DB := { seen_urls := [("a", "t")], cache := [] }

theorem C7_witness :
    check_if_url_exists "a" "T" dbSeenA = true ∧
    add_url "a" "T" dbSeenA = dbSeenA ∧
    check_if_url_exists "a" "T" dbEmpty = false ∧
    (add_url "a" "T" dbEmpty).seen_urls = dbEmpty.seen_urls ++ [("a", pyLower "T")] ∧
    seen_pair_count "a" "T" (add_url "b" "U" dbSeenA) ≤ 1 ∧
    seen_pair_count "a" "T" ((add_url "a" "T")^[3] dbEmpty) = 1 := by
  have h1 : check_if_url_exists "a" "T" dbSeenA = true := rfl
  have h2 : check_if_url_exists "a" "T" dbEmpty = false := rfl
  have hle1 : seen_pair_count "a" "T" dbSeenA ≤ 1 := by decide
  have hle0 : seen_pair_count "a" "T" dbEmpty ≤ 1 := by decide
  exact ⟨h1, (C7_record_url_unique "a" "T" dbSeenA 0).1 h1, h2,
    (C7_record_url_unique "a" "T" dbEmpty 0).2.1 h2,
    (C7_record_url_unique "a" "T" dbSeenA 0).2.2.1 "b" "U" hle1,
    (C7_record_url_unique "a" "T" dbEmpty 2).2.2.2 hle0⟩

/-- C8: for every stored cache record whose sources column is present (a
non-NULL, non-empty string) but is not valid JSON, `get_cached_report`
returns the record with its sources degraded to the empty list; the
function is total, so the parse failure never propagates to the caller. -/
theorem C8_malformed_sources_degrade (topic persona : String) (db : DB) (row : CacheRow)
    (sval : String)
    (hfind : db.cache.find?
      (fun r => r.topic == pyLower topic && r.persona == pyLower persona) = some row)
    (hs : row.sources = some sval) (hne : sval ≠ "") (hbad : json_loads sval = none) :
    get_cached_report topic persona db =
      some { report := row.report, sources := JsonVal.arr [] } := by
  simp [get_cached_report, hfind, hs, hne, hbad]

/-- A store whose cache row for ("t", "p") carries a malformed sources
column. -/
def dbC8 : DB :=
  { seen_urls := [],
    cache := [{ topic := "t", persona := "p", report := "r", sources := some "oops" }] }

theorem C8_witness :
    dbC8.cache.find? (fun r => r.topic == pyLower "t" && r.persona == pyLower "p") =
      some { topic := "t", persona := "p", report := "r", sources := some "oops" } ∧
    json_loads "oops" = none ∧
    get_cached_report "t" "p" dbC8 =
      some { report := "r", sources := JsonVal.arr [] } :=
  ⟨rfl, rfl, C8_malformed_sources_degrade "t" "p" dbC8 _ "oops" rfl rfl (by decide) rfl⟩

/-- C2: after a cache miss the orchestrator resets the rotator cursor to
index 0 (the incoming cursor position is irrelevant to the run), and a
single summary or synthesis request that hits quota exhaustion on the first
N-1 credentials and succeeds on the Nth succeeds after exactly N completion
attempts with the rotator cursor ending at index N-1. -/
theorem C2_cursor_reset_and_rotation
    (env : Env) (topic persona : String) (db0 : DB) (km0 : ApiKeyManager)
    (keys : List String) (prompt url sprompt : String) (t : String) (out : Option String)
    (db db2 : DB) (successful : List String) (stopic spersona : String)
    (hmiss : get_cached_report topic persona db0 = none)
    (hkeys : keys ≠ [])
    (hq : ∀ i, i + 1 < keys.length →
      env.completeSummary (keys.getD i "") prompt = CompletionResult.quotaExhausted)
    (hs : env.completeSummary (keys.getD (keys.length - 1) "") prompt =
      CompletionResult.success t)
    (hq2 : ∀ i, i + 1 < keys.length →
      env.completeSynthesis (keys.getD i "") sprompt = SynthResult.quotaExhausted)
    (hs2 : env.completeSynthesis (keys.getD (keys.length - 1) "") sprompt =
      SynthResult.success out) :
    run_agent_task env topic persona { db := db0, km := km0 } =
      run_agent_task env topic persona
        { db := db0, km := { keys := km0.keys, current_key_index := 0 } } ∧
    (summary_attempt_loop env prompt url keys.length (keys.getD 0 "")
        { db := db, km := { keys := keys, current_key_index := 0 } } []).1 =
      some ("Source: " ++ url ++ "\nSummary: " ++ t ++ "\n---") ∧
    (summary_attempt_loop env prompt url keys.length (keys.getD 0 "")
        { db := db, km := { keys := keys, current_key_index := 0 } } []).2.2.1 =
      { db := db, km := { keys := keys, current_key_index := keys.length - 1 } } ∧
    count_summary_attempts (summary_attempt_loop env prompt url keys.length (keys.getD 0 "")
        { db := db, km := { keys := keys, current_key_index := 0 } } []).2.2.2 = keys.length ∧
    (synthesis_attempt_loop env stopic spersona sprompt successful keys.length (keys.getD 0 "")
        { db := db2, km := { keys := keys, current_key_index := 0 } } []).1 =
      { report := out.getD "Could not generate report.",
        sources := JsonVal.arr (successful.map JsonVal.str) } ∧
    (synthesis_attempt_loop env stopic spersona sprompt successful keys.length (keys.getD 0 "")
        { db := db2, km := { keys := keys, current_key_index := 0 } } []).2.1 =
      { db := cache_report stopic spersona (out.getD "Could not generate report.") successful db2,
        km := { keys := keys, current_key_index := keys.length - 1 } } ∧
    count_synth_attempts (synthesis_attempt_loop env stopic spersona sprompt successful
        keys.length (keys.getD 0 "")
        { db := db2, km := { keys := keys, current_key_index := 0 } } []).2.2 = keys.length := by
  have hpos : 0 < keys.length := List.length_pos.mpr hkeys
  obtain ⟨s1, s2, s3⟩ := summary_attempt_loop_rotation env prompt url keys t hs
    keys.length 0 db [] (by omega) hpos (fun i _ hlt => hq i hlt)
  obtain ⟨y1, y2, y3⟩ := synthesis_attempt_loop_rotation env stopic spersona sprompt
    successful keys out hs2 keys.length 0 db2 [] (by omega) hpos (fun i _ hlt => hq2 i hlt)
  have hinit : initial_pass_state topic { db := db0, km := km0 } =
      initial_pass_state topic
        { db := db0, km := { keys := km0.keys, current_key_index := 0 } } := rfl
  have hpasses : run_passes env topic { db := db0, km := km0 } =
      run_passes env topic
        { db := db0, km := { keys := km0.keys, current_key_index := 0 } } := by
    unfold run_passes primary_pass
    rw [hinit]
  refine ⟨?_, s1, s2, ?_, y1, y2, ?_⟩
  · simp only [run_agent_task, hmiss]
    rw [hpasses]
  · simpa [count_summary_attempts] using s3
  · simpa [count_synth_attempts] using y3

/-- An environment whose completion capabilities hit quota on key "k1" and
succeed on key "k2". -/
def envC2 : Env :=
  { search := fun _ => [],
    fetchYoutube := fun _ => "", fetchPdf := fun _ => "", fetchScrape := fun _ => "",
    completeSummary := fun k _ =>
      if k = "k2" then CompletionResult.success "s" else CompletionResult.quotaExhausted,
    completeSynthesis := fun k _ =>
      if k = "k2" then SynthResult.success (some "o") else SynthResult.quotaExhausted }

theorem C2_witness :
    get_cached_report "t" "p" dbEmpty = none ∧
    (["k1", "k2"] : List String) ≠ [] ∧
    run_agent_task envC2 "t" "p"
        { db := dbEmpty, km := { keys := ["k1", "k2"], current_key_index := 1 } } =
      run_agent_task envC2 "t" "p"
        { db := dbEmpty, km := { keys := ["k1", "k2"], current_key_index := 0 } } ∧
    (summary_attempt_loop envC2 "P" "u" 2 "k1"
        { db := dbEmpty, km := { keys := ["k1", "k2"], current_key_index := 0 } } []).1 =
      some ("Source: " ++ "u" ++ "\nSummary: " ++ "s" ++ "\n---") ∧
    (summary_attempt_loop envC2 "P" "u" 2 "k1"
        { db := dbEmpty, km := { keys := ["k1", "k2"], current_key_index := 0 } } []).2.2.1 =
      { db := dbEmpty, km := { keys := ["k1", "k2"], current_key_index := 1 } } ∧
    count_summary_attempts (summary_attempt_loop envC2 "P" "u" 2 "k1"
        { db := dbEmpty, km := { keys := ["k1", "k2"], current_key_index := 0 } } []).2.2.2 = 2 ∧
    count_synth_attempts (synthesis_attempt_loop envC2 "t2" "p2" "S" ["u"] 2 "k1"
        { db := dbEmpty, km := { keys := ["k1", "k2"], current_key_index := 0 } } []).2.2 = 2 := by
  have hq : ∀ i, i + 1 < (["k1", "k2"] : List String).length →
      envC2.completeSummary ((["k1", "k2"] : List String).getD i "") "P" =
        CompletionResult.quotaExhausted := by
    intro i hi
    have h0 : i = 0 := by simp at hi; omega
    subst h0
    rfl
  have hq2 : ∀ i, i + 1 < (["k1", "k2"] : List String).length →
      envC2.completeSynthesis ((["k1", "k2"] : List String).getD i "") "S" =
        SynthResult.quotaExhausted := by
    intro i hi
    have h0 : i = 0 := by simp at hi; omega
    subst h0
    rfl
  obtain ⟨a, b1, b2, b3, _, _, c3⟩ := C2_cursor_reset_and_rotation envC2 "t" "p" dbEmpty
    { keys := ["k1", "k2"], current_key_index := 1 } ["k1", "k2"] "P" "u" "S" "s" (some "o")
    dbEmpty dbEmpty ["u"] "t2" "p2" rfl (by decide) hq rfl hq2 rfl
  exact ⟨rfl, by decide, a, b1, b2, b3, c3⟩

/-- C4: when the summary completion capability always signals
quota-exhausted, a URL with usable content is abandoned after exactly N
completion attempts (N = credential count) with no summary recorded; and
when final synthesis is reached and its completion capability always signals
quota-exhausted, the run returns the failed-to-synthesize report whose
sources are exactly the URLs that succeeded earlier in the run, after
exactly N synthesis attempts. -/
theorem C4_total_exhaustion (env1 env2 : Env) (url topic k : String) (s : AgentState)
    (topic2 persona2 : String) (s2 : AgentState) :
    (usable_content (fetch_content env1 url) = true →
     (∀ k2, env1.completeSummary k2 (mk_summary_prompt (fetch_content env1 url)) =
        CompletionResult.quotaExhausted) →
     (analyze_content_with_retry env1 url topic k s).1 = none ∧
     count_summary_attempts (analyze_content_with_retry env1 url topic k s).2.2.2 =
       s.km.keys.length) ∧
    (get_cached_report topic2 persona2 s2.db = none →
     (run_passes env2 topic2 s2).summaries ≠ [] →
     (∀ k2 p2, env2.completeSynthesis k2 p2 = SynthResult.quotaExhausted) →
     (run_agent_task env2 topic2 persona2 s2).1 =
       { report := "Failed to synthesize a report after exhausting all API keys.",
         sources := JsonVal.arr ((run_passes env2 topic2 s2).successful.map JsonVal.str) } ∧
     count_synth_attempts (run_agent_task env2 topic2 persona2 s2).2.2 =
       s2.km.keys.length) := by
  constructor
  · intro husable hq
    obtain ⟨l1, l2⟩ := summary_attempt_loop_all_quota env1
      (mk_summary_prompt (fetch_content env1 url)) url hq
      ({ s with db := add_url url topic s.db } : AgentState).km.keys.length k
      { s with db := add_url url topic s.db } [Event.fetchEv url]
    constructor
    · simp only [analyze_content_with_retry, husable, if_true]
      exact l1
    · simp only [analyze_content_with_retry, husable, if_true]
      rw [l2]
      simp [count_summary_attempts]
  · intro hmiss hsum hq
    rw [run_agent_task_miss env2 topic2 persona2 s2 hmiss, if_neg hsum]
    obtain ⟨l1, l2⟩ := synthesis_attempt_loop_all_quota env2 topic2 persona2
      (mk_synthesis_prompt (persona_directive persona2) topic2
        (run_passes env2 topic2 s2).summaries)
      (run_passes env2 topic2 s2).successful (fun k2 => hq k2 _)
      (run_passes env2 topic2 s2).state.km.keys.length
      (get_current_key (run_passes env2 topic2 s2).state.km)
      (run_passes env2 topic2 s2).state (run_passes env2 topic2 s2).events
    constructor
    · exact l1
    · show count_synth_attempts (synthesis_phase env2 topic2 persona2
        (run_passes env2 topic2 s2)).2.2 = s2.km.keys.length
      unfold synthesis_phase
      rw [l2]
      have hzero : count_synth_attempts (run_passes env2 topic2 s2).events = 0 := by
        obtain ⟨tail, ht, hall⟩ := run_passes_events env2 topic2 s2
        rw [ht]
        apply count_synth_of_no_synth
        intro e he k2 p2
        rcases List.mem_cons.mp he with rfl | hmem
        · simp
        · rcases hall e hmem with ⟨u, rfl⟩ | ⟨a, b, rfl⟩ <;> simp
      rw [hzero, run_passes_keys]
      simp

/-- An environment discovering one URL with usable content whose completion
capabilities always hit quota. -/
def envAllQuota : Env :=
  { search := fun _ => [SearchItem.str "a"],
    fetchYoutube := fun _ => "", fetchPdf := fun _ => "",
    fetchScrape := fun _ => "body",
    completeSummary := fun _ _ => CompletionResult.quotaExhausted,
    completeSynthesis := fun _ _ => SynthResult.quotaExhausted }

/-- An environment discovering one URL with usable content, successful
summaries, and a synthesis capability that always hits quota. -/
def envC4 : Env :=
  { search := fun _ => [SearchItem.str "a"],
    fetchYoutube := fun _ => "", fetchPdf := fun _ => "",
    fetchScrape := fun _ => "body",
    completeSummary := fun _ _ => CompletionResult.success "s",
    completeSynthesis := fun _ _ => SynthResult.quotaExhausted }

/-- A state with an empty store and a single credential. -/
def stateOneKey : AgentState :=
  { db := dbEmpty, km := { keys := ["k"], current_key_index := 0 } }

theorem C4_witness :
    usable_content (fetch_content envAllQuota "a") = true ∧
    (analyze_content_with_retry envAllQuota "a" "t" "k" stateOneKey).1 = none ∧
    count_summary_attempts
      (analyze_content_with_retry envAllQuota "a" "t" "k" stateOneKey).2.2.2 = 1 ∧
    get_cached_report "t" "p" stateOneKey.db = none ∧
    (run_passes envC4 "t" stateOneKey).summaries ≠ [] ∧
    (run_agent_task envC4 "t" "p" stateOneKey).1 =
      { report := "Failed to synthesize a report after exhausting all API keys.",
        sources := JsonVal.arr ((run_passes envC4 "t" stateOneKey).successful.map JsonVal.str) } ∧
    count_synth_attempts (run_agent_task envC4 "t" "p" stateOneKey).2.2 = 1 := by
  obtain ⟨h1, h2⟩ :=
    C4_total_exhaustion envAllQuota envC4 "a" "t" "k" stateOneKey "t" "p" stateOneKey
  have husable : usable_content (fetch_content envAllQuota "a") = true := rfl
  have hs : (run_passes envC4 "t" stateOneKey).summaries ≠ [] := by decide
  obtain ⟨a1, a2⟩ := h1 husable (fun _ => rfl)
  obtain ⟨b1, b2⟩ := h2 rfl hs (fun _ _ => rfl)
  exact ⟨husable, a1, a2, rfl, hs, b1, b2⟩

theorem run_trace_has_search (env : Env) (topic persona : String) (s : AgentState)
    (hmiss : get_cached_report topic persona s.db = none) :
    Event.searchEv topic ∈ (run_agent_task env topic persona s).2.2 := by
  rw [run_agent_task_miss env topic persona s hmiss]
  obtain ⟨tail, ht, _⟩ := run_passes_events env topic s
  by_cases hsum : (run_passes env topic s).summaries = []
  · rw [if_pos hsum]
    simp [ht]
  · rw [if_neg hsum]
    unfold synthesis_phase
    obtain ⟨tail2, ht2, _⟩ := synthesis_attempt_loop_events env topic persona
      (mk_synthesis_prompt (persona_directive persona) topic (run_passes env topic s).summaries)
      (run_passes env topic s).successful
      (run_passes env topic s).state.km.keys.length
      (get_current_key (run_passes env topic s).state.km)
      (run_passes env topic s).state (run_passes env topic s).events
    rw [ht2, ht]
    simp

/-- C5: when discovery and fallback together yield zero usable summaries,
the run returns the no-information report with an empty source list, the
synthesis cache is unchanged (the result is never written to it), and a
subsequent call with the same topic and persona misses the cache and
performs discovery again. -/
theorem C5_no_result_not_cached (env : Env) (topic persona : String) (s : AgentState)
    (hmiss : get_cached_report topic persona s.db = none)
    (hsum : (run_passes env topic s).summaries = []) :
    (run_agent_task env topic persona s).1 =
      { report := "No new or recoverable information was found to create a report.",
        sources := JsonVal.arr [] } ∧
    (run_agent_task env topic persona s).2.1.db.cache = s.db.cache ∧
    get_cached_report topic persona (run_agent_task env topic persona s).2.1.db = none ∧
    Event.searchEv topic ∈ (run_agent_task env topic persona
      (run_agent_task env topic persona s).2.1).2.2 := by
  have hr := run_agent_task_miss env topic persona s hmiss
  rw [hr, if_pos hsum]
  have hcache : (run_passes env topic s).state.db.cache = s.db.cache :=
    run_passes_cache env topic s
  have hmiss2 : get_cached_report topic persona (run_passes env topic s).state.db = none := by
    rw [get_cached_report_congr topic persona _ s.db hcache]
    exact hmiss
  exact ⟨rfl, hcache, hmiss2,
    run_trace_has_search env topic persona (run_passes env topic s).state hmiss2⟩

theorem C5_witness :
    get_cached_report "t" "p" stateOneKey.db = none ∧
    (run_passes envAllQuota "t" stateOneKey).summaries = [] ∧
    (run_agent_task envAllQuota "t" "p" stateOneKey).1 =
      { report := "No new or recoverable information was found to create a report.",
        sources := JsonVal.arr [] } ∧
    (run_agent_task envAllQuota "t" "p" stateOneKey).2.1.db.cache = stateOneKey.db.cache ∧
    get_cached_report "t" "p" (run_agent_task envAllQuota "t" "p" stateOneKey).2.1.db = none ∧
    Event.searchEv "t" ∈ (run_agent_task envAllQuota "t" "p"
      (run_agent_task envAllQuota "t" "p" stateOneKey).2.1).2.2 := by
  have hsum : (run_passes envAllQuota "t" stateOneKey).summaries = [] := by decide
  obtain ⟨a, b, c, d⟩ := C5_no_result_not_cached envAllQuota "t" "p" stateOneKey rfl hsum
  exact ⟨rfl, hsum, a, b, c, d⟩

/-- C9: within one run the rotator cursor is not reset between the
extraction pass and the synthesis phase: the first synthesis attempt is made
with the credential at whatever cursor position the passes left the rotator
(only the start of a run resets the cursor to 0), so synthesis may begin
mid-cycle. -/
theorem C9_no_reset_before_synthesis (env : Env) (topic persona : String) (s : AgentState)
    (hmiss : get_cached_report topic persona s.db = none)
    (hsum : (run_passes env topic s).summaries ≠ [])
    (hkeys : s.km.keys ≠ []) :
    ∃ tail, (run_agent_task env topic persona s).2.2 =
      (run_passes env topic s).events ++
        Event.synthAttempt (get_current_key (run_passes env topic s).state.km)
          (mk_synthesis_prompt (persona_directive persona) topic
            (run_passes env topic s).summaries) :: tail := by
  rw [run_agent_task_miss env topic persona s hmiss, if_neg hsum]
  unfold synthesis_phase
  have hpos : 0 < (run_passes env topic s).state.km.keys.length := by
    rw [run_passes_keys]
    exact List.length_pos.mpr hkeys
  obtain ⟨m, hm⟩ : ∃ m, (run_passes env topic s).state.km.keys.length = m + 1 :=
    ⟨_, (Nat.succ_pred_eq_of_pos hpos).symm⟩
  rw [hm]
  exact synthesis_attempt_loop_first_event env topic persona _ _ m _ _ _

/-- An environment whose summary capability hits quota on key "k" and
succeeds on key "l", leaving the rotator mid-cycle before synthesis. -/
def envC9 : Env :=
  { search := fun _ => [SearchItem.str "a"],
    fetchYoutube := fun _ => "", fetchPdf := fun _ => "",
    fetchScrape := fun _ => "body",
    completeSummary := fun k _ =>
      if k = "l" then CompletionResult.success "s" else CompletionResult.quotaExhausted,
    completeSynthesis := fun _ _ => SynthResult.quotaExhausted }

/-- A state with two credentials. -/
def stateTwoKeys : AgentState :=
  { db := dbEmpty, km := { keys := ["k", "l"], current_key_index := 0 } }

theorem C9_witness :
    get_cached_report "t" "p" stateTwoKeys.db = none ∧
    (run_passes envC9 "t" stateTwoKeys).summaries ≠ [] ∧
    (["k", "l"] : List String) ≠ [] ∧
    (run_passes envC9 "t" stateTwoKeys).state.km.current_key_index = 1 ∧
    get_current_key (run_passes envC9 "t" stateTwoKeys).state.km = "l" ∧
    (∃ tail, (run_agent_task envC9 "t" "p" stateTwoKeys).2.2 =
      (run_passes envC9 "t" stateTwoKeys).events ++
        Event.synthAttempt (get_current_key (run_passes envC9 "t" stateTwoKeys).state.km)
          (mk_synthesis_prompt (persona_directive "p") "t"
            (run_passes envC9 "t" stateTwoKeys).summaries) :: tail) := by
  have hsum : (run_passes envC9 "t" stateTwoKeys).summaries ≠ [] := by decide
  exact ⟨rfl, hsum, by decide, by decide, by decide,
    C9_no_reset_before_synthesis envC9 "t" "p" stateTwoKeys rfl hsum (by decide)⟩

theorem cache_report_lookup (topic persona report : String) (sources : List String)
    (db : DB) (topic2 persona2 : String)
    (ht : pyLower topic2 = pyLower topic) (hp : pyLower persona2 = pyLower persona) :
    (cache_report topic persona report sources db).cache.find?
      (fun r => r.topic == pyLower topic2 && r.persona == pyLower persona2) =
      some { topic := pyLower topic, persona := pyLower persona, report := report,
             sources := some (json_dumps_strlist sources) } := by
  simp only [cache_report]
  rw [ht, hp]
  rw [List.find?_append]
  have hnone : (db.cache.filter
      (fun r => !(r.topic == pyLower topic && r.persona == pyLower persona))).find?
      (fun r => r.topic == pyLower topic && r.persona == pyLower persona) = none := by
    rw [List.find?_eq_none]
    intro r hr
    have hneg := (List.mem_filter.mp hr).2
    rw [Bool.not_eq_true'] at hneg
    simp [hneg]
  rw [hnone]
  simp

/-- C10: persona directive resolution is a case-sensitive exact dictionary
lookup, so any persona not exactly equal to a table key (including case
variants such as "Default" or "MARKETING_MANAGER") resolves to the default
directive; cache reads and writes case-fold both topic and persona, so the
report synthesized under the default directive is stored under the
case-folded key and served to any case variant of the same topic and
persona. -/
theorem C10_case_sensitive_persona_casefolded_cache
    (env : Env) (topic topic2 persona persona2 : String) (s : AgentState) (out : String)
    (hper : ∀ kv ∈ PERSONA_PROMPTS, kv.1 ≠ persona) :
    persona_directive persona = persona_directive "default" ∧
    (pyLower topic2 = pyLower topic → pyLower persona2 = pyLower persona →
     get_cached_report topic persona s.db = none →
     (run_passes env topic s).summaries ≠ [] →
     env.completeSynthesis (get_current_key (run_passes env topic s).state.km)
       (mk_synthesis_prompt (persona_directive "default") topic
         (run_passes env topic s).summaries) = SynthResult.success (some out) →
     s.km.keys ≠ [] →
     (run_agent_task env topic persona s).1.report = out ∧
     (get_cached_report topic2 persona2 (run_agent_task env topic persona s).2.1.db).map
       (fun r => r.report) = some out) := by
  have hnone : PERSONA_PROMPTS.find? (fun kv => kv.1 == persona) = none := by
    rw [List.find?_eq_none]
    intro kv hkv
    simp [hper kv hkv]
  have hdef : PERSONA_PROMPTS.find? (fun kv => kv.1 == "default") =
      some ("default",
        "Synthesize the following summaries into a comprehensive and objective overview.") := rfl
  have hdir : persona_directive persona = persona_directive "default" := by
    simp [persona_directive, hnone, hdef]
  refine ⟨hdir, ?_⟩
  intro ht hp hmiss hsum hsucc hkeys
  rw [run_agent_task_miss env topic persona s hmiss, if_neg hsum]
  unfold synthesis_phase
  rw [hdir]
  have hpos : 0 < (run_passes env topic s).state.km.keys.length := by
    rw [run_passes_keys]
    exact List.length_pos.mpr hkeys
  obtain ⟨m, hm⟩ : ∃ m, (run_passes env topic s).state.km.keys.length = m + 1 :=
    ⟨_, (Nat.succ_pred_eq_of_pos hpos).symm⟩
  rw [hm]
  simp only [synthesis_attempt_loop, hsucc]
  constructor
  · simp
  · have hfind := cache_report_lookup topic persona
      ((some out).getD "Could not generate report.")
      (run_passes env topic s).successful (run_passes env topic s).state.db
      topic2 persona2 ht hp
    simp only [Option.getD] at hfind ⊢
    simp [get_cached_report, hfind]

/-- An environment where extraction, summarization and synthesis all
succeed. -/
def envC10 : Env :=
  { search := fun _ => [SearchItem.str "a"],
    fetchYoutube := fun _ => "", fetchPdf := fun _ => "",
    fetchScrape := fun _ => "body",
    completeSummary := fun _ _ => CompletionResult.success "s",
    completeSynthesis := fun _ _ => SynthResult.success (some "o") }

theorem C10_witness :
    (∀ kv ∈ PERSONA_PROMPTS, kv.1 ≠ "MARKETING_MANAGER") ∧
    persona_directive "MARKETING_MANAGER" = persona_directive "default" ∧
    persona_directive "Default" = persona_directive "default" ∧
    get_cached_report "T" "MARKETING_MANAGER" stateOneKey.db = none ∧
    (run_passes envC10 "T" stateOneKey).summaries ≠ [] ∧
    (run_agent_task envC10 "T" "MARKETING_MANAGER" stateOneKey).1.report = "o" ∧
    (get_cached_report "t" "marketing_manager"
      (run_agent_task envC10 "T" "MARKETING_MANAGER" stateOneKey).2.1.db).map
      (fun r => r.report) = some "o" := by
  have hper : ∀ kv ∈ PERSONA_PROMPTS, kv.1 ≠ "MARKETING_MANAGER" := by decide
  have hper2 : ∀ kv ∈ PERSONA_PROMPTS, kv.1 ≠ "Default" := by decide
  have hsum : (run_passes envC10 "T" stateOneKey).summaries ≠ [] := by decide
  obtain ⟨hd1, himp⟩ := C10_case_sensitive_persona_casefolded_cache envC10 "T" "t"
    "MARKETING_MANAGER" "marketing_manager" stateOneKey "o" hper
  obtain ⟨hr1, hr2⟩ := himp rfl rfl rfl hsum rfl (by decide)
  exact ⟨hper, hd1,
    (C10_case_sensitive_persona_casefolded_cache envC10 "T" "t" "Default" "default"
      stateOneKey "o" hper2).1, rfl, hsum, hr1, hr2⟩

/-- A state that has previously seen URL "b" for topic "t". -/
def stateSeenB : AgentState :=
  { db := { seen_urls := [("b", "t")], cache := [] },
    km := { keys := ["k"], current_key_index := 0 } }

/-- C3 counterexample: a run in which a discovery URL's extraction succeeds
(usable content) but its summarization hits quota on every credential; the
summary set stays empty, the fallback executes, and the previously seen URL
"b" is fetched — refuting the claim that a successful extraction alone
suppresses the fallback. -/
theorem C3_counterexample :
    "a" ∈ search_urls envAllQuota "t" ∧
    usable_content (fetch_content envAllQuota "a") = true ∧
    "b" ∈ get_seen_urls_for_topic "t" stateSeenB.db ∧
    Event.fetchEv "b" ∈ (run_agent_task envAllQuota "t" "default" stateSeenB).2.2 := by
  exact ⟨by decide, rfl, by decide, by decide⟩

/-- C3 (amended): when the primary (discovery) pass produces at least one
summary, the fallback pass does not execute: every URL fetched during the
run comes from the discovery candidate list, so no URL outside it — in
particular no merely previously-seen URL — is fetched. -/
theorem C3_fallback_suppressed_by_summary (env : Env) (topic persona : String)
    (s : AgentState) (u : String)
    (hmiss : get_cached_report topic persona s.db = none)
    (hsum : (primary_pass env topic s).summaries ≠ [])
    (hfetch : Event.fetchEv u ∈ (run_agent_task env topic persona s).2.2) :
    u ∈ search_urls env topic := by
  have hrp : run_passes env topic s = primary_pass env topic s := by
    simp only [run_passes, if_neg hsum]
  rw [run_agent_task_miss env topic persona s hmiss, hrp, if_neg hsum] at hfetch
  unfold synthesis_phase at hfetch
  obtain ⟨tail2, ht2, hall2⟩ := synthesis_attempt_loop_events env topic persona
    (mk_synthesis_prompt (persona_directive persona) topic (primary_pass env topic s).summaries)
    (primary_pass env topic s).successful
    (primary_pass env topic s).state.km.keys.length
    (get_current_key (primary_pass env topic s).state.km)
    (primary_pass env topic s).state (primary_pass env topic s).events
  rw [ht2] at hfetch
  obtain ⟨tail1, ht1, hall1⟩ :=
    process_urls_events env topic (search_urls env topic) (initial_pass_state topic s)
  rcases List.mem_append.mp hfetch with hmem | hmem
  · have hpe : (primary_pass env topic s).events = [Event.searchEv topic] ++ tail1 := by
      unfold primary_pass
      rw [ht1]
      rfl
    rw [hpe] at hmem
    rcases List.mem_append.mp hmem with hmem2 | hmem2
    · simp at hmem2
    · rcases hall1 _ hmem2 with ⟨u2, hu2, heq⟩ | ⟨k2, p2, heq⟩
      · cases heq
        exact hu2
      · cases heq
  · obtain ⟨k2, heq⟩ := hall2 _ hmem
    cases heq

theorem C3_witness :
    get_cached_report "t" "p" stateOneKey.db = none ∧
    (primary_pass envC4 "t" stateOneKey).summaries ≠ [] ∧
    Event.fetchEv "a" ∈ (run_agent_task envC4 "t" "p" stateOneKey).2.2 ∧
    "a" ∈ search_urls envC4 "t" := by
  have h2 : (primary_pass envC4 "t" stateOneKey).summaries ≠ [] := by decide
  have h3 : Event.fetchEv "a" ∈ (run_agent_task envC4 "t" "p" stateOneKey).2.2 := by decide
  exact ⟨rfl, h2, h3,
    C3_fallback_suppressed_by_summary envC4 "t" "p" stateOneKey "a" rfl h2 h3⟩

/-- A state that has previously seen URL "a" for topic "t", with one
credential. -/
def stateSeenA : AgentState :=
  { db := dbSeenA, km := { keys := ["k"], current_key_index := 0 } }

/-- C6 counterexample: URL "a" appears in both the discovery list and the
prior-seen set; its summarization fails (quota on every credential), so it
never enters the successful list, and the fallback pass fetches it a second
time — two fetches in one run, refuting the at-most-once claim. -/
theorem C6_counterexample :
    "a" ∈ search_urls envAllQuota "t" ∧
    "a" ∈ get_seen_urls_for_topic "t" stateSeenA.db ∧
    count_fetch "a" (run_agent_task envAllQuota "t" "default" stateSeenA).2.2 = 2 := by
  exact ⟨by decide, by decide, by decide⟩

/-- C6 (amended): a URL appearing in both the discovery list and the
prior-seen set is processed exactly once per run provided it occurs once in
the discovery candidates and its processing there succeeds (it enters the
successful list): the successful-list check skips only already-summarized
URLs, and a partial success suppresses the fallback, so no second fetch
occurs.  (A URL whose summarization fails is not protected by the check and
may be fetched again by the fallback pass, as the counterexample shows.) -/
theorem C6_processed_once_when_successful (env : Env) (topic persona : String)
    (s : AgentState) (u : String)
    (hmiss : get_cached_report topic persona s.db = none)
    (hseen : u ∈ get_seen_urls_for_topic topic s.db)
    (hocc : (search_urls env topic).count u = 1)
    (hsucc : u ∈ (primary_pass env topic s).successful) :
    count_fetch u (run_agent_task env topic persona s).2.2 = 1 := by
  have hpair := process_urls_pairing env topic (search_urls env topic)
    (initial_pass_state topic s)
  have hlen : (primary_pass env topic s).summaries.length =
      (primary_pass env topic s).successful.length := by
    have h1 : (initial_pass_state topic s).summaries.length = 0 := rfl
    have h2 : (initial_pass_state topic s).successful.length = 0 := rfl
    unfold primary_pass
    rw [h1, h2] at hpair
    omega
  have hsum : (primary_pass env topic s).summaries ≠ [] := by
    intro hnil
    have hpos : 0 < (primary_pass env topic s).successful.length :=
      List.length_pos.mpr (List.ne_nil_of_mem hsucc)
    rw [hnil] at hlen
    simp at hlen
    omega
  have hrp : run_passes env topic s = primary_pass env topic s := by
    simp only [run_passes, if_neg hsum]
  rw [run_agent_task_miss env topic persona s hmiss, hrp, if_neg hsum]
  unfold synthesis_phase
  obtain ⟨tail2, ht2, hall2⟩ := synthesis_attempt_loop_events env topic persona
    (mk_synthesis_prompt (persona_directive persona) topic (primary_pass env topic s).summaries)
    (primary_pass env topic s).successful
    (primary_pass env topic s).state.km.keys.length
    (get_current_key (primary_pass env topic s).state.km)
    (primary_pass env topic s).state (primary_pass env topic s).events
  rw [ht2, count_fetch_append]
  have hcount : count_fetch u (primary_pass env topic s).events = 1 := by
    unfold primary_pass
    rw [process_urls_count_fetch_one env topic u (search_urls env topic)
      (initial_pass_state topic s) (by simp [initial_pass_state]) hocc]
    simp [initial_pass_state, count_fetch]
  have htail : count_fetch u tail2 = 0 :=
    count_fetch_of_no_fetch _ _ (fun e he v => by
      obtain ⟨k2, rfl⟩ := hall2 e he
      simp)
  rw [hcount, htail]

theorem C6_witness :
    get_cached_report "t" "p" stateSeenA.db = none ∧
    "a" ∈ get_seen_urls_for_topic "t" stateSeenA.db ∧
    (search_urls envC4 "t").count "a" = 1 ∧
    "a" ∈ (primary_pass envC4 "t" stateSeenA).successful ∧
    count_fetch "a" (run_agent_task envC4 "t" "p" stateSeenA).2.2 = 1 := by
  have h2 : "a" ∈ get_seen_urls_for_topic "t" stateSeenA.db := by decide
  have h3 : (search_urls envC4 "t").count "a" = 1 := by decide
  have h4 : "a" ∈ (primary_pass envC4 "t" stateSeenA).successful := by decide
  exact ⟨rfl, h2, h3, h4,
    C6_processed_once_when_successful envC4 "t" "p" stateSeenA "a" rfl h2 h3 h4⟩
